/-
Verification of the signature subsystem (subpacket codec, signature
builder/verifier, key validity engine) of this OpenPGP implementation.

Bytes are modelled as `Nat` (each < 256 where produced by the code),
byte buffers as `List Nat`.  Machine arithmetic that truncates in the
source (`as u8`) is rendered with explicit `% 256`.
-/
import Mathlib

namespace OpenPGP

/-! ## Subpacket length codec

Embedding of `SubpacketLengthTrait for SubpacketLength`
(src/openpgp/src/subpacket.rs, lines 967-1009).  A parsed length is
returned together with the unconsumed rest of the input. -/

/-- Big-endian 32-bit value from four bytes
(`from_be_u32`, subpacket.rs lines 731-740, specialised to exactly four
bytes as used by `read_be_u32`). -/
def be32 (a b c d : Nat) : Nat :=
  (a <<< 24) + (b <<< 16) + (c <<< 8) + d

/-- `SubpacketLength::parse` (subpacket.rs lines 968-983): one octet if
`o1 < 192`; two octets if `192 <= o1 < 255`; for `o1 == 255` a 4-byte
big-endian value follows. -/
def lenParse : List Nat → Option (Nat × List Nat)
  | [] => none
  | o1 :: rest =>
    if o1 < 192 then
      some (o1, rest)
    else if o1 < 255 then
      match rest with
      | o2 :: rest2 => some (((o1 - 192) <<< 8) + o2 + 192, rest2)
      | [] => none
    else
      match rest with
      | a :: b :: c :: d :: rest4 => some (be32 a b c d, rest4)
      | _ => none

/-- `SubpacketLength::serialize` (subpacket.rs lines 985-999).  Note
that the third branch writes exactly the four big-endian value octets
`v>>24, v>>16, v>>8, v` — the source emits no leading `255` octet. -/
def lenSerialize (v : Nat) : List Nat :=
  if v < 192 then
    [v]
  else if v < 16320 then
    let w := v - 192 + (192 <<< 8)
    [(w >>> 8) % 256, w % 256]
  else
    [(v >>> 24) % 256, (v >>> 16) % 256, (v >>> 8) % 256, v % 256]

/-- `SubpacketLength::len` (subpacket.rs lines 1001-1009). -/
def lenLen (v : Nat) : Nat :=
  if v < 192 then 1 else if v < 16320 then 2 else 5

/-! ## Subpacket values and per-tag decoding

Embedding of `SubpacketValue` and `From<SubpacketRaw> for Subpacket`
(subpacket.rs lines 533-592 and 742-955).  Tags are the wire numbers
(bits 0-6 of the tag byte); payloads carried by a value are the raw
bytes the source would borrow.  `Signature::parse_naked`, used for
`EmbeddedSignature`, is not part of the shown sources, so decoding
takes an oracle `pn` telling whether the nested signature parse
succeeds; the decoded value then carries the raw packet bytes. -/

/-- Big-endian 16-bit value (`from_be_u16`, subpacket.rs lines 722-729). -/
def be16 (a b : Nat) : Nat := (a <<< 8) + b

/-- The payload shapes of `SubpacketValue` (subpacket.rs lines 533-592). -/
inductive SPV where
  | Unknown (v : List Nat)
  | Invalid (v : List Nat)
  | SignatureCreationTime (n : Nat)
  | SignatureExpirationTime (n : Nat)
  | ExportableCertification (b : Bool)
  | TrustSignature (level amount : Nat)
  | RegularExpression (v : List Nat)
  | Revocable (b : Bool)
  | KeyExpirationTime (n : Nat)
  | PreferredSymmetricAlgorithms (v : List Nat)
  | RevocationKey (cls pkAlgo : Nat) (fp : List Nat)
  | Issuer (keyid : List Nat)
  | NotationData (flags : Nat) (name value : List Nat)
  | PreferredHashAlgorithms (v : List Nat)
  | PreferredCompressionAlgorithms (v : List Nat)
  | KeyServerPreferences (v : List Nat)
  | PreferredKeyServer (v : List Nat)
  | PrimaryUserID (b : Bool)
  | PolicyURI (v : List Nat)
  | KeyFlags (v : List Nat)
  | SignersUserID (v : List Nat)
  | ReasonForRevocation (code : Nat) (reason : List Nat)
  | Features (v : List Nat)
  | SignatureTarget (pkAlgo hashAlgo : Nat) (digest : List Nat)
  | EmbeddedSignature (raw : List Nat)
  | IssuerFingerprint (fp : List Nat)
  deriving DecidableEq, Repr

/-- A decoded `Subpacket` (subpacket.rs lines 683-690). -/
structure SP where
  critical : Bool
  tag : Nat
  value : SPV
  deriving DecidableEq, Repr

/-- `From<SubpacketRaw<'a>> for Subpacket<'a>` (subpacket.rs lines
742-955): per-tag shape check, with a failed check degrading to
`Invalid` and an unassigned tag to `Unknown`. -/
def decode (pn : List Nat → Bool) (tag : Nat) (critical : Bool)
    (v : List Nat) : SP :=
  let val : Option SPV :=
    match tag with
    | 2 => match v with
      | a :: b :: c :: d :: _ => some (.SignatureCreationTime (be32 a b c d))
      | _ => none
    | 3 => match v with
      | a :: b :: c :: d :: _ => some (.SignatureExpirationTime (be32 a b c d))
      | _ => none
    | 4 => match v with
      | [b] => some (.ExportableCertification (b == 1))
      | _ => none
    | 5 => match v with
      | [x, y] => some (.TrustSignature x y)
      | _ => none
    | 6 =>
      some (.RegularExpression (if v.getLast? == some 0 then v.dropLast else v))
    | 7 => match v with
      | [b] => some (.Revocable (b != 0))
      | _ => none
    | 9 => match v with
      | a :: b :: c :: d :: _ => some (.KeyExpirationTime (be32 a b c d))
      | _ => none
    | 11 => some (.PreferredSymmetricAlgorithms v)
    | 12 => match v with
      | cls :: alg :: f :: fr => some (.RevocationKey cls alg (f :: fr))
      | _ => none
    | 16 => some (.Issuer v)
    | 20 => match v with
      | a :: b :: c :: d :: e :: f :: g :: h :: r :: rs =>
        let nameLen := be16 e f
        let valueLen := be16 g h
        let rest := r :: rs
        if v.length = 8 + nameLen + valueLen then
          some (.NotationData (be32 a b c d) (rest.take nameLen)
            (rest.drop nameLen))
        else none
      | _ => none
    | 21 => some (.PreferredHashAlgorithms v)
    | 22 => some (.PreferredCompressionAlgorithms v)
    | 23 => some (.KeyServerPreferences v)
    | 24 => some (.PreferredKeyServer v)
    | 25 => match v with
      | [b] => some (.PrimaryUserID (b != 0))
      | _ => none
    | 26 => some (.PolicyURI v)
    | 27 => some (.KeyFlags v)
    | 28 => some (.SignersUserID v)
    | 29 => match v with
      | c :: rest => some (.ReasonForRevocation c rest)
      | _ => none
    | 30 => some (.Features v)
    | 31 => match v with
      | pk :: h :: d :: dr => some (.SignatureTarget pk h (d :: dr))
      | _ => none
    | 32 => if pn v then some (.EmbeddedSignature v) else none
    | 33 => match v with
      | ver :: rest => if ver = 4 then some (.IssuerFingerprint rest) else none
      | _ => none
    | _ => some (.Unknown v)
  match val with
  | some value => { critical := critical, tag := tag, value := value }
  | none => { critical := critical, tag := tag, value := .Invalid v }

/-! ## Subpacket area: iteration, cache, lookup, mutation

Embedding of `SubpacketArea` and `SubpacketAreaIter` (subpacket.rs
lines 298-501).  The raw record list replaces the `(start, len)` pairs
of the source: the cache stores the referenced value bytes directly. -/

/-- `SubpacketRaw` (subpacket.rs lines 275-279), with the tag as its
wire number. -/
structure RawSP where
  critical : Bool
  tag : Nat
  value : List Nat
  deriving DecidableEq, Repr

/-- One step of `SubpacketAreaIter::next` (subpacket.rs lines 324-371),
iterated with fuel (each step consumes at least one byte): parse a
length; a record extending beyond the area ends iteration; a
zero-length record is skipped; otherwise split critical bit and tag
from the tag byte and take the value bytes. -/
def iterAreaF : Nat → List Nat → List RawSP
  | 0, _ => []
  | fuel + 1, bytes =>
    match lenParse bytes with
    | none => []
    | some (len, rest) =>
      if rest.length < len then []
      else if len = 0 then iterAreaF fuel rest
      else
        match rest with
        | [] => []
        | t :: rest2 =>
          { critical := 128 ≤ t, tag := t % 128,
            value := rest2.take (len - 1) } :: iterAreaF fuel (rest2.drop (len - 1))

/-- Full iteration over a subpacket area's bytes. -/
def iterArea (bytes : List Nat) : List RawSP :=
  iterAreaF (bytes.length + 1) bytes

/-- The lookup cache: tag to (critical, value bytes), as built by
`cache_init` (subpacket.rs lines 408-417) into a `HashMap`.  The map is
observed only through `get`, so it is modelled extensionally. -/
def Cache := Nat → Option (Bool × List Nat)

/-- The empty `HashMap`. -/
def cacheEmpty : Cache := fun _ => none

/-- `HashMap::insert`: replace any existing entry for the key. -/
def cacheInsert (m : Cache) (t : Nat) (c : Bool) (v : List Nat) : Cache :=
  fun k => if k = t then some (c, v) else m k

/-- `HashMap::get`. -/
def cacheFind (m : Cache) (k : Nat) : Option (Bool × List Nat) := m k

/-- The cache `cache_init` builds for given area bytes: one insertion
per record in iteration order, so the last occurrence of a tag wins. -/
def cacheOf (bytes : List Nat) : Cache :=
  (iterArea bytes).foldl (fun m r => cacheInsert m r.tag r.critical r.value)
    cacheEmpty

/-- `SubpacketArea` (subpacket.rs lines 300-313): raw bytes plus the
lazily built cache. -/
structure SubpacketAreaM where
  data : List Nat
  parsed : Option Cache

/-- `SubpacketArea::lookup` (subpacket.rs lines 425-438): initialise
the cache if absent, then decode the cached record for the tag. -/
def SubpacketAreaM.lookup (pn : List Nat → Bool) (a : SubpacketAreaM)
    (tag : Nat) : Option SP :=
  let cache := a.parsed.getD (cacheOf a.data)
  (cacheFind cache tag).map (fun cv => decode pn tag cv.1 cv.2)

/-- Pure lookup against given area bytes (what `lookup` computes when
the cache has just been built from `d`). -/
def lookupData (pn : List Nat → Bool) (d : List Nat) (tag : Nat) : Option SP :=
  (cacheFind (cacheOf d) tag).map (fun cv => decode pn tag cv.1 cv.2)

/-- `Subpacket` before serialization: critical flag, wire tag number,
and the serialized value payload (whose length is `SubpacketValue::len`). -/
structure SubpacketM where
  critical : Bool
  tag : Nat
  value : List Nat
  deriving DecidableEq, Repr

/-- `Subpacket::len` (subpacket.rs lines 715-719): one tag byte, plus
the octets of the length field as computed **on the value length**,
plus the value itself. -/
def subpacketLen (p : SubpacketM) : Nat :=
  1 + lenLen p.value.length + p.value.length

/-- Modelled from the spec: `serialize::Serialize for Subpacket` is
not among the shown sources.  Per the wire format (spec §6) and
consistently with `SubpacketArea::remove_all` (subpacket.rs lines
489-495) and the area parser, a subpacket serializes as the length
field covering tag byte plus value, then the tag byte with the
critical bit, then the value bytes. -/
def subpacketSerialize (p : SubpacketM) : List Nat :=
  lenSerialize (1 + p.value.length) ++
    (p.tag + if p.critical then 128 else 0) :: p.value

/-- The error from `SubpacketArea::add` on overflow. -/
inductive CodecError where
  | malformedPacket
  deriving DecidableEq, Repr

/-- `SubpacketArea::add` (subpacket.rs lines 446-456): fail if the
current size plus `Subpacket::len` exceeds `u16::MAX`, leaving the
area untouched; otherwise invalidate the cache and append the
serialized bytes. -/
def SubpacketAreaM.add (a : SubpacketAreaM) (p : SubpacketM) :
    SubpacketAreaM × Option CodecError :=
  if a.data.length + subpacketLen p > 65535 then
    (a, some .malformedPacket)
  else
    ({ data := a.data ++ subpacketSerialize p, parsed := none }, none)

/-- `SubpacketArea::remove_all` (subpacket.rs lines 479-500): rebuild
the area from all non-matching records, re-encoding each with length
`1 + value.len()`; invalidate the cache; return the old bytes. -/
def SubpacketAreaM.removeAll (a : SubpacketAreaM) (tag : Nat) :
    SubpacketAreaM × List Nat :=
  let kept := (iterArea a.data).filter (fun r => r.tag != tag)
  let newData := kept.foldl
    (fun acc r => acc ++ lenSerialize (1 + r.value.length) ++
      (r.tag + if r.critical then 128 else 0) :: r.value) []
  ({ data := newData, parsed := none }, a.data)

/-- `SubpacketArea::replace` (subpacket.rs lines 465-473): remove all
records with the tag, then add; on failure restore the pre-removal
bytes. -/
def SubpacketAreaM.replace (a : SubpacketAreaM) (p : SubpacketM) :
    SubpacketAreaM × Option CodecError :=
  match (a.removeAll p.tag).1.add p with
  | (a2, none) => (a2, none)
  | (a2, some e) => ({ a2 with data := (a.removeAll p.tag).2 }, some e)

/-! ## Theorems for claim C3 -/

/-- C3: the claimed round-trip `parse (serialize n) = n`,
`|serialize n| = len n`, and the leading-255 five-byte form all fail at
`n = 16320`: the source writes only the four value octets `[0,0,63,192]`
(no `255` marker), so the serialization is 4 bytes where `len` reports
5, and re-parsing reads the leading `0` as a one-octet length and
returns `0`, not `16320`. -/
theorem subpacketLength_roundtrip_fails_at_16320 :
    lenSerialize 16320 = [0, 0, 63, 192] ∧
    lenParse (lenSerialize 16320) = some (0, [0, 63, 192]) ∧
    (lenSerialize 16320).length = 4 ∧
    lenLen 16320 = 5 := by
  refine ⟨?_, ?_, ?_, ?_⟩ <;> decide

/-! ## Theorems for claim C4 -/

/-- C4: at the size boundary the claimed invariant fails: with a
65342-byte area and a subpacket carrying a 191-byte payload,
`Subpacket::len` counts the length field as 1 octet (computed on the
value length 191) although the wire length field encodes 192 and takes
2 octets, so `add` accepts (65342 + 193 = 65535) and then appends 194
bytes, growing the area to 65536 bytes — beyond the 65535-byte cap the
claim (and the function's own documentation) require `add` to enforce
by failing with the area unchanged. -/
theorem add_boundary_overflow (d v : List Nat) (hd : d.length = 65342)
    (hv : v.length = 191) :
    ((SubpacketAreaM.mk d none).add (SubpacketM.mk false 100 v)).2 = none ∧
    ((SubpacketAreaM.mk d none).add
        (SubpacketM.mk false 100 v)).1.data.length = 65536 := by
  have hsl : subpacketLen (SubpacketM.mk false 100 v) = 193 := by
    show 1 + lenLen v.length + v.length = 193
    rw [hv]
    rfl
  have hcond : ¬ ((SubpacketAreaM.mk d none).data.length
      + subpacketLen (SubpacketM.mk false 100 v) > 65535) := by
    show ¬ (d.length + subpacketLen (SubpacketM.mk false 100 v) > 65535)
    rw [hd, hsl]
    norm_num
  have hser : (subpacketSerialize (SubpacketM.mk false 100 v)).length
      = 194 := by
    unfold subpacketSerialize
    rw [List.length_append, List.length_cons]
    show (lenSerialize (1 + v.length)).length + (v.length + 1) = 194
    rw [hv]
    rfl
  constructor
  · unfold SubpacketAreaM.add
    rw [if_neg hcond]
  · unfold SubpacketAreaM.add
    rw [if_neg hcond]
    show (d ++ subpacketSerialize (SubpacketM.mk false 100 v)).length = 65536
    rw [List.length_append, hd, hser]

/-- C4 at the concrete failing input. -/
theorem subpacketArea_add_breaks_size_cap :
    ((SubpacketAreaM.mk (List.replicate 65342 0) none).add
        (SubpacketM.mk false 100 (List.replicate 191 0))).2 = none ∧
    ((SubpacketAreaM.mk (List.replicate 65342 0) none).add
        (SubpacketM.mk false 100 (List.replicate 191 0))).1.data.length
      = 65536 :=
  add_boundary_overflow (List.replicate 65342 0) (List.replicate 191 0)
    (List.length_replicate _ _) (List.length_replicate _ _)

/-! ## Theorems for claim C7 -/

/-- Inserting into the cache makes lookup of that key return the new
entry and leaves other keys unaffected. -/
theorem cacheFind_insert (m : Cache) (t k : Nat) (c : Bool) (v : List Nat) :
    cacheFind (cacheInsert m t c v) k =
      if k = t then some (c, v) else cacheFind m k := rfl

/-- Folding the per-record insertions over a record list makes cache
lookup return the data of the **last** record with the key, falling
back to the initial cache when the key never occurs. -/
theorem cacheFind_foldl (l : List RawSP) (m : Cache) (k : Nat) :
    cacheFind
        (l.foldl (fun m r => cacheInsert m r.tag r.critical r.value) m) k =
      match (l.filter (fun r => r.tag == k)).getLast? with
      | some r => some (r.critical, r.value)
      | none => cacheFind m k := by
  induction l generalizing m with
  | nil => simp
  | cons r l ih =>
    rw [List.foldl_cons, ih]
    by_cases h : r.tag = k
    · have hf : (r :: l).filter (fun r => r.tag == k)
          = r :: l.filter (fun r => r.tag == k) := by
        simp [List.filter_cons, h]
      rw [hf]
      cases hfl : l.filter (fun r => r.tag == k) with
      | nil =>
        rw [cacheFind_insert, if_pos h.symm]
        rfl
      | cons x xs =>
        rw [List.getLast?_cons_cons]
        rfl
    · have hf : (r :: l).filter (fun r => r.tag == k)
          = l.filter (fun r => r.tag == k) := by
        simp [List.filter_cons, h]
      rw [hf]
      cases (l.filter (fun r => r.tag == k)).getLast? with
      | some x => rfl
      | none => rw [cacheFind_insert, if_neg (Ne.symm h)]

/-- `add` either rejects with the area untouched or appends the
serialized bytes with the cache invalidated. -/
theorem add_cases (a : SubpacketAreaM) (p : SubpacketM) :
    a.add p = (a, some .malformedPacket) ∨
    a.add p = ({ data := a.data ++ subpacketSerialize p, parsed := none },
      none) := by
  unfold SubpacketAreaM.add
  by_cases hov : a.data.length + subpacketLen p > 65535
  · exact Or.inl (if_pos hov)
  · exact Or.inr (if_neg hov)

/-- C7: on an area whose cache is absent or accurately reflects its
bytes (the invariant every constructor and mutation maintains),
`lookup` returns the decoding of the **last** record with the queried
tag in iteration order — the last element of the full scan restricted
to that tag — and after `add`, `remove_all` or `replace` the cache is
invalidated, so a subsequent `lookup` is computed from the mutated
bytes. -/
theorem subpacketArea_lookup_last_wins_cache (pn : List Nat → Bool)
    (a : SubpacketAreaM) (tag : Nat) (p : SubpacketM) (t2 : Nat)
    (hwf : a.parsed = none ∨ a.parsed = some (cacheOf a.data)) :
    (a.lookup pn tag =
      (((iterArea a.data).filter (fun r => r.tag == tag)).getLast?).map
        (fun r => decode pn tag r.critical r.value)) ∧
    (∀ t, ((a.add p).1).lookup pn t = lookupData pn ((a.add p).1).data t) ∧
    (∀ t, ((a.removeAll t2).1).lookup pn t
      = lookupData pn ((a.removeAll t2).1).data t) ∧
    (∀ t, ((a.replace p).1).lookup pn t
      = lookupData pn ((a.replace p).1).data t) := by
  have hpure : ∀ d t, lookupData pn d t =
      (((iterArea d).filter (fun r => r.tag == t)).getLast?).map
        (fun r => decode pn t r.critical r.value) := by
    intro d t
    unfold lookupData cacheOf
    rw [cacheFind_foldl]
    cases ((iterArea d).filter (fun r => r.tag == t)).getLast? with
    | some x => rfl
    | none => rfl
  have hnone : ∀ b : SubpacketAreaM, b.parsed = none →
      ∀ t, b.lookup pn t = lookupData pn b.data t := by
    intro b hb t
    unfold SubpacketAreaM.lookup lookupData
    rw [hb]
    rfl
  have hlookup : ∀ t, a.lookup pn t = lookupData pn a.data t := by
    intro t
    rcases hwf with h | h
    · exact hnone a h t
    · unfold SubpacketAreaM.lookup lookupData
      rw [h]
      rfl
  refine ⟨(hlookup tag).trans (hpure a.data tag), ?_, ?_, ?_⟩
  · intro t
    rcases add_cases a p with h | h <;> rw [h]
    · exact hlookup t
    · exact hnone _ rfl t
  · intro t
    exact hnone _ rfl t
  · intro t
    unfold SubpacketAreaM.replace
    rcases add_cases (a.removeAll p.tag).1 p with h | h <;> rw [h]
    · exact hnone _ rfl t
    · exact hnone _ rfl t

/-- Witness for C7 on an area holding two SignatureCreationTime
subpackets (values 1 then 2): lookup returns the second. -/
theorem subpacketArea_lookup_last_wins_cache_witness :
    (SubpacketAreaM.mk [5, 2, 0, 0, 0, 1, 5, 2, 0, 0, 0, 2] none).lookup
        (fun _ => false) 2
      = some { critical := false, tag := 2,
               value := .SignatureCreationTime 2 } :=
  ((subpacketArea_lookup_last_wins_cache (fun _ => false)
      (SubpacketAreaM.mk [5, 2, 0, 0, 0, 1, 5, 2, 0, 0, 0, 2] none) 2
      (SubpacketM.mk false 7 [1]) 2 (Or.inl rfl)).1).trans (by decide)

/-! ## Theorems for claim C9 -/

/-- C9 (counterexample): the source decodes a one-byte `PrimaryUserID`
payload with `raw.value[0] != 0` (subpacket.rs lines 861-868), so the
byte `2` decodes to `PrimaryUserID(true)` — not to `Invalid([2])` as
the claim's exact-0/1 rule would require. -/
theorem primaryUserID_nonzero_decodes_true :
    decode (fun _ => false) 25 false [2]
      = { critical := false, tag := 25, value := .PrimaryUserID true } ∧
    decode (fun _ => false) 25 false [2]
      ≠ { critical := false, tag := 25, value := .Invalid [2] } := by
  constructor <;> decide

/-- C9 (amended): `ExportableCertification` decodes a one-byte payload
to `true` exactly when the byte equals 1 (any other byte gives
`false`); `PrimaryUserID` — like `Revocable` — decodes any nonzero
byte to `true`; for all three, a payload whose length is not exactly
one byte degrades to `Invalid(raw_bytes)`, never a hard error. -/
theorem one_byte_boolean_decode_rules (pn : List Nat → Bool) (c : Bool)
    (b : Nat) (v : List Nat) (hv : v.length ≠ 1) :
    (decode pn 4 c [b]).value = .ExportableCertification (b == 1) ∧
    (decode pn 25 c [b]).value = .PrimaryUserID (b != 0) ∧
    (decode pn 7 c [b]).value = .Revocable (b != 0) ∧
    (decode pn 4 c v).value = .Invalid v ∧
    (decode pn 25 c v).value = .Invalid v ∧
    (decode pn 7 c v).value = .Invalid v := by
  rcases v with _ | ⟨x, _ | ⟨y, rest⟩⟩
  · exact ⟨rfl, rfl, rfl, rfl, rfl, rfl⟩
  · exact absurd rfl hv
  · exact ⟨rfl, rfl, rfl, rfl, rfl, rfl⟩

/-- Witness for C9 (amended) at byte 5 and the empty payload. -/
theorem one_byte_boolean_decode_rules_witness :
    ([] : List Nat).length ≠ 1 ∧
    (decode (fun _ => false) 4 false [5]).value
      = .ExportableCertification false ∧
    (decode (fun _ => false) 25 false [5]).value = .PrimaryUserID true ∧
    (decode (fun _ => false) 4 false []).value = .Invalid [] :=
  ⟨by decide,
   (one_byte_boolean_decode_rules (fun _ => false) false 5 [] (by decide)).1,
   (one_byte_boolean_decode_rules (fun _ => false) false 5 []
     (by decide)).2.1,
   (one_byte_boolean_decode_rules (fun _ => false) false 5 []
     (by decide)).2.2.2.1⟩

/-! ## Old-module `Signature` accessors (claim C10) -/

/-- The subpacket-bearing part of the old-module `Signature`: its
hashed and unhashed areas. -/
structure SignatureOldM where
  hashedArea : SubpacketAreaM
  unhashedArea : SubpacketAreaM

/-- `Signature::subpacket` (subpacket.rs lines 1260-1274): prefer the
hashed area; on a miss, consult the unhashed area only for the
`Issuer` (16) and `EmbeddedSignature` (32) tags. -/
def SignatureOldM.subpacket (pn : List Nat → Bool) (s : SignatureOldM)
    (tag : Nat) : Option SP :=
  match s.hashedArea.lookup pn tag with
  | some sb => some sb
  | none =>
    if ¬ (tag = 16 ∨ tag = 32) then none
    else s.unhashedArea.lookup pn tag

/-- `Signature::issuer_fingerprint` (subpacket.rs lines 2156-2168). -/
def SignatureOldM.issuerFingerprint (pn : List Nat → Bool)
    (s : SignatureOldM) : Option (List Nat) :=
  match s.subpacket pn 33 with
  | some sb =>
    match sb.value with
    | .IssuerFingerprint fp => some fp
    | _ => none
  | none => none

/-! ## Theorems for claim C10 -/

/-- C10: `Signature::subpacket` returns the hashed area's entry when
one exists; on a hashed-area miss the unhashed area is consulted only
for the Issuer (16) and EmbeddedSignature (32) tags, every other tag
— including IssuerFingerprint (33) — reporting absent; consequently
`issuer_fingerprint` ignores a fingerprint present only in the
unhashed area. -/
theorem signature_subpacket_hashed_preference (pn : List Nat → Bool)
    (s : SignatureOldM) (tag : Nat) :
    ((s.hashedArea.lookup pn tag).isSome →
      s.subpacket pn tag = s.hashedArea.lookup pn tag) ∧
    (s.hashedArea.lookup pn tag = none → (tag = 16 ∨ tag = 32) →
      s.subpacket pn tag = s.unhashedArea.lookup pn tag) ∧
    (s.hashedArea.lookup pn tag = none → ¬ (tag = 16 ∨ tag = 32) →
      s.subpacket pn tag = none) ∧
    (s.hashedArea.lookup pn 33 = none →
      s.issuerFingerprint pn = none) := by
  refine ⟨?_, ?_, ?_, ?_⟩
  · intro h
    unfold SignatureOldM.subpacket
    cases hh : s.hashedArea.lookup pn tag with
    | some sb => rfl
    | none =>
      rw [hh] at h
      exact absurd h (by simp)
  · intro h h16
    unfold SignatureOldM.subpacket
    rw [h]
    exact if_neg (not_not_intro h16)
  · intro h h16
    unfold SignatureOldM.subpacket
    rw [h]
    exact if_pos h16
  · intro h
    unfold SignatureOldM.issuerFingerprint SignatureOldM.subpacket
    rw [h]
    rw [if_pos (by decide : ¬ ((33 : Nat) = 16 ∨ (33 : Nat) = 32))]

/-- Witness for C10: a signature whose only IssuerFingerprint record
sits in the unhashed area reports no issuer fingerprint, although a
direct unhashed lookup finds it. -/
theorem signature_subpacket_hashed_preference_witness :
    (SignatureOldM.mk (SubpacketAreaM.mk [] none)
        (SubpacketAreaM.mk (22 :: 33 :: 4 :: List.replicate 20 9)
          none)).issuerFingerprint (fun _ => false) = none ∧
    (SubpacketAreaM.mk (22 :: 33 :: 4 :: List.replicate 20 9) none).lookup
        (fun _ => false) 33
      = some { critical := false, tag := 33,
               value := .IssuerFingerprint (List.replicate 20 9) } :=
  ⟨(signature_subpacket_hashed_preference (fun _ => false)
      (SignatureOldM.mk (SubpacketAreaM.mk [] none)
        (SubpacketAreaM.mk (22 :: 33 :: 4 :: List.replicate 20 9) none))
      33).2.2.2 (by decide),
   by decide⟩

/-! ## Signature verification and signing gates (claims C1, C2, C5)

Embedding of the `verify_*` functions and the type gates of the
`sign_*` builder methods (packet/signature/mod.rs).  The hash-digest
construction and the cryptographic check `key.verify(sig, digest)` are
collaborator calls (spec §6); they are abstracted into an oracle
`kv : KeyM → SigM → Except VError Unit` applied exactly where the
source calls `verify_digest`'s final `key.verify`.  A signature is
reduced to the data these functions consult: its declared type, the
`signature_creation_time()` accessor result, the
`key_flags().map(for_signing)` accessor result, and the
`embedded_signature()` accessor result. -/

/-- `SignatureType` (consumed via equality tests only). -/
inductive SigType where
  | Binary
  | Text
  | Standalone
  | GenericCertification
  | PersonaCertification
  | CasualCertification
  | PositiveCertification
  | SubkeyBinding
  | PrimaryKeyBinding
  | DirectKey
  | KeyRevocation
  | SubkeyRevocation
  | CertificationRevocation
  | Timestamp
  | Unknown (u : Nat)
  deriving DecidableEq, Repr

/-- The errors the verification paths produce. -/
inductive VError where
  | badSignature
  | unsupportedSignatureType (t : SigType)
  deriving DecidableEq, Repr

/-- A key, as consulted by `verify_digest`: an identity for the oracle
and `creation_time()`. -/
structure KeyM where
  id : Nat
  creationTime : Nat
  deriving DecidableEq, Repr

/-- A signature, reduced to the accessor results the verification
functions consult (`embedded` is the `embedded_signature()` result,
itself a signature). -/
inductive SigM where
  | mk (typ : SigType) (creationTime : Option Nat)
      (keyFlagsForSigning : Option Bool) (embedded : Option SigM)

def SigM.typ : SigM → SigType
  | .mk t _ _ _ => t

def SigM.creationTime : SigM → Option Nat
  | .mk _ ct _ _ => ct

/-- The result of `key_flags().map(|kf| kf.for_signing())`. -/
def SigM.keyFlagsForSigning : SigM → Option Bool
  | .mk _ _ kf _ => kf

/-- The result of `embedded_signature()`. -/
def SigM.embedded : SigM → Option SigM
  | .mk _ _ _ e => e

/-- `Signature::verify_digest` (packet/signature/mod.rs lines
1626-1644): reject with `BadSignature` if the creation time is absent
or earlier than the key's creation time, otherwise delegate to
`key.verify` (the oracle). -/
def verify_digest (kv : KeyM → SigM → Except VError Unit) (s : SigM)
    (k : KeyM) : Except VError Unit :=
  match s.creationTime with
  | some ct =>
    if ct < k.creationTime then .error .badSignature
    else kv k s
  | none => .error .badSignature

/-- `Signature::verify_primary_key_binding` (lines 1873-1887): only
type `PrimaryKeyBinding` is accepted; the digest is verified against
the **subkey**. -/
def verify_primary_key_binding (kv : KeyM → SigM → Except VError Unit)
    (s : SigM) (pk subkey : KeyM) : Except VError Unit :=
  if s.typ ≠ .PrimaryKeyBinding then
    .error (.unsupportedSignatureType s.typ)
  else verify_digest kv s subkey

/-- `Signature::verify_subkey_binding` (lines 1824-1855): only type
`SubkeyBinding` is accepted; after the digest check, a signature whose
key flags are signing-capable additionally needs an embedded primary
key binding signature, recursively verified against primary key and
subkey. -/
def verify_subkey_binding (kv : KeyM → SigM → Except VError Unit)
    (s : SigM) (signer pk subkey : KeyM) : Except VError Unit :=
  if s.typ ≠ .SubkeyBinding then
    .error (.unsupportedSignatureType s.typ)
  else
    match verify_digest kv s signer with
    | .error e => .error e
    | .ok _ =>
      if (s.keyFlagsForSigning.getD false) then
        match s.embedded with
        | some backsig => verify_primary_key_binding kv backsig pk subkey
        | none => .error .badSignature
      else .ok ()

/-- `Signature::verify_standalone` (lines 1689-1701). -/
def verify_standalone (kv : KeyM → SigM → Except VError Unit) (s : SigM)
    (k : KeyM) : Except VError Unit :=
  if s.typ ≠ .Standalone then .error (.unsupportedSignatureType s.typ)
  else verify_digest kv s k

/-- `Signature::verify_timestamp` (lines 1716-1728). -/
def verify_timestamp (kv : KeyM → SigM → Except VError Unit) (s : SigM)
    (k : KeyM) : Except VError Unit :=
  if s.typ ≠ .Timestamp then .error (.unsupportedSignatureType s.typ)
  else verify_digest kv s k

/-- `Signature::verify_direct_key` (lines 1749-1763). -/
def verify_direct_key (kv : KeyM → SigM → Except VError Unit) (s : SigM)
    (signer : KeyM) : Except VError Unit :=
  if s.typ ≠ .DirectKey then .error (.unsupportedSignatureType s.typ)
  else verify_digest kv s signer

/-- `Signature::verify_primary_key_revocation` (lines 1784-1798). -/
def verify_primary_key_revocation (kv : KeyM → SigM → Except VError Unit)
    (s : SigM) (signer : KeyM) : Except VError Unit :=
  if s.typ ≠ .KeyRevocation then .error (.unsupportedSignatureType s.typ)
  else verify_digest kv s signer

/-- `Signature::verify_subkey_revocation` (lines 1908-1925). -/
def verify_subkey_revocation (kv : KeyM → SigM → Except VError Unit)
    (s : SigM) (signer : KeyM) : Except VError Unit :=
  if s.typ ≠ .SubkeyRevocation then .error (.unsupportedSignatureType s.typ)
  else verify_digest kv s signer

/-- `Signature::verify_userid_binding` (lines 1946-1963). -/
def verify_userid_binding (kv : KeyM → SigM → Except VError Unit)
    (s : SigM) (signer : KeyM) : Except VError Unit :=
  if ¬ (s.typ = .GenericCertification ∨ s.typ = .PersonaCertification
      ∨ s.typ = .CasualCertification ∨ s.typ = .PositiveCertification) then
    .error (.unsupportedSignatureType s.typ)
  else verify_digest kv s signer

/-- `Signature::verify_userid_revocation` (lines 1985-2000). -/
def verify_userid_revocation (kv : KeyM → SigM → Except VError Unit)
    (s : SigM) (signer : KeyM) : Except VError Unit :=
  if s.typ ≠ .CertificationRevocation then
    .error (.unsupportedSignatureType s.typ)
  else verify_digest kv s signer

/-- `Signature::verify_user_attribute_binding` (lines 2021-2040). -/
def verify_user_attribute_binding (kv : KeyM → SigM → Except VError Unit)
    (s : SigM) (signer : KeyM) : Except VError Unit :=
  if ¬ (s.typ = .GenericCertification ∨ s.typ = .PersonaCertification
      ∨ s.typ = .CasualCertification ∨ s.typ = .PositiveCertification) then
    .error (.unsupportedSignatureType s.typ)
  else verify_digest kv s signer

/-- `Signature::verify_user_attribute_revocation` (lines 2060-2075). -/
def verify_user_attribute_revocation (kv : KeyM → SigM → Except VError Unit)
    (s : SigM) (signer : KeyM) : Except VError Unit :=
  if s.typ ≠ .CertificationRevocation then
    .error (.unsupportedSignatureType s.typ)
  else verify_digest kv s signer

/-- `Signature::verify_message` (lines 2097-2110). -/
def verify_message (kv : KeyM → SigM → Except VError Unit) (s : SigM)
    (signer : KeyM) : Except VError Unit :=
  if s.typ ≠ .Binary ∧ s.typ ≠ .Text then
    .error (.unsupportedSignatureType s.typ)
  else verify_digest kv s signer

/-! The type gates of the `sign_*` builder methods.  Each method first
matches the builder's declared type and errs on anything outside its
set; everything after the gate (`pre_sign`, hashing, `sign`) is
abstracted as `rest`. -/

/-- `SignatureBuilder::sign_standalone` gate (lines 315-329). -/
def sign_standalone (rest : Except VError SigM) (typ : SigType) :
    Except VError SigM :=
  match typ with
  | .Standalone => rest
  | .Unknown _ => rest
  | t => .error (.unsupportedSignatureType t)

/-- `SignatureBuilder::sign_timestamp` gate (lines 428-440). -/
def sign_timestamp (rest : Except VError SigM) (typ : SigType) :
    Except VError SigM :=
  match typ with
  | .Timestamp => rest
  | .Unknown _ => rest
  | t => .error (.unsupportedSignatureType t)

/-- `SignatureBuilder::sign_direct_key` gate (lines 548-560). -/
def sign_direct_key (rest : Except VError SigM) (typ : SigType) :
    Except VError SigM :=
  match typ with
  | .DirectKey => rest
  | .KeyRevocation => rest
  | .Unknown _ => rest
  | t => .error (.unsupportedSignatureType t)

/-- `SignatureBuilder::sign_userid_binding` gate (lines 681-697). -/
def sign_userid_binding (rest : Except VError SigM) (typ : SigType) :
    Except VError SigM :=
  match typ with
  | .GenericCertification => rest
  | .PersonaCertification => rest
  | .CasualCertification => rest
  | .PositiveCertification => rest
  | .CertificationRevocation => rest
  | .Unknown _ => rest
  | t => .error (.unsupportedSignatureType t)

/-- `SignatureBuilder::sign_subkey_binding` gate (lines 803-817). -/
def sign_subkey_binding (rest : Except VError SigM) (typ : SigType) :
    Except VError SigM :=
  match typ with
  | .SubkeyBinding => rest
  | .SubkeyRevocation => rest
  | .Unknown _ => rest
  | t => .error (.unsupportedSignatureType t)

/-- `SignatureBuilder::sign_primary_key_binding` gate (lines 951-965). -/
def sign_primary_key_binding (rest : Except VError SigM) (typ : SigType) :
    Except VError SigM :=
  match typ with
  | .PrimaryKeyBinding => rest
  | .Unknown _ => rest
  | t => .error (.unsupportedSignatureType t)

/-- `SignatureBuilder::sign_user_attribute_binding` gate (lines
1083-1099). -/
def sign_user_attribute_binding (rest : Except VError SigM)
    (typ : SigType) : Except VError SigM :=
  match typ with
  | .GenericCertification => rest
  | .PersonaCertification => rest
  | .CasualCertification => rest
  | .PositiveCertification => rest
  | .CertificationRevocation => rest
  | .Unknown _ => rest
  | t => .error (.unsupportedSignatureType t)

/-- `SignatureBuilder::sign_message` gate (lines 1250-1260). -/
def sign_message (rest : Except VError SigM) (typ : SigType) :
    Except VError SigM :=
  match typ with
  | .Binary => rest
  | .Text => rest
  | .Unknown _ => rest
  | t => .error (.unsupportedSignatureType t)

/-! ## Theorems for claim C1 -/

/-- C1: `verify_digest` fails with `BadSignature` whenever the
signature's creation-time subpacket is absent, and whenever it is
earlier than the key's creation time; only when a creation time is
present and not earlier than the key's does it delegate the
cryptographic check to the key. -/
theorem verify_digest_creation_time_policy
    (kv : KeyM → SigM → Except VError Unit) (s : SigM) (k : KeyM) :
    (s.creationTime = none →
      verify_digest kv s k = .error .badSignature) ∧
    (∀ ct, s.creationTime = some ct → ct < k.creationTime →
      verify_digest kv s k = .error .badSignature) ∧
    (∀ ct, s.creationTime = some ct → ¬ ct < k.creationTime →
      verify_digest kv s k = kv k s) := by
  refine ⟨?_, ?_, ?_⟩
  · intro h
    unfold verify_digest
    rw [h]
  · intro ct h hlt
    unfold verify_digest
    rw [h]
    exact if_pos hlt
  · intro ct h hlt
    unfold verify_digest
    rw [h]
    exact if_neg hlt

/-- Witness for C1 with a key created at time 5: a signature created
at 2 and one without a creation time are rejected, one created at 7 is
delegated to the (accepting) key. -/
theorem verify_digest_creation_time_policy_witness :
    verify_digest (fun _ _ => .ok ()) (SigM.mk .Standalone none none none)
        (KeyM.mk 0 5) = .error .badSignature ∧
    verify_digest (fun _ _ => .ok ())
        (SigM.mk .Standalone (some 2) none none) (KeyM.mk 0 5)
      = .error .badSignature ∧
    verify_digest (fun _ _ => .ok ())
        (SigM.mk .Standalone (some 7) none none) (KeyM.mk 0 5)
      = .ok () :=
  ⟨(verify_digest_creation_time_policy (fun _ _ => .ok ())
      (SigM.mk .Standalone none none none) (KeyM.mk 0 5)).1 rfl,
   (verify_digest_creation_time_policy (fun _ _ => .ok ())
      (SigM.mk .Standalone (some 2) none none) (KeyM.mk 0 5)).2.1 2 rfl
     (by decide),
   (verify_digest_creation_time_policy (fun _ _ => .ok ())
      (SigM.mk .Standalone (some 7) none none) (KeyM.mk 0 5)).2.2 7 rfl
     (by decide)⟩

/-! ## Theorems for claim C2 -/

/-- C2: for a subkey-binding signature that passes the digest check,
a signing-capable key-flags subpacket makes verification require an
embedded primary-key-binding signature, recursively verified against
primary key and subkey: a missing embedded signature is a
`BadSignature` error, a present one decides the outcome (so a
signing-capable binding only verifies when some embedded back
signature itself verifies), while without the signing flag the binding
verifies with no backsig at all. -/
theorem verify_subkey_binding_backsig_policy
    (kv : KeyM → SigM → Except VError Unit) (s : SigM)
    (signer pk subkey : KeyM) (htyp : s.typ = .SubkeyBinding)
    (hdig : verify_digest kv s signer = .ok ()) :
    (s.keyFlagsForSigning.getD false = true →
      (s.embedded = none →
        verify_subkey_binding kv s signer pk subkey
          = .error .badSignature) ∧
      (∀ b, s.embedded = some b →
        verify_subkey_binding kv s signer pk subkey
          = verify_primary_key_binding kv b pk subkey)) ∧
    (s.keyFlagsForSigning.getD false = true →
      verify_subkey_binding kv s signer pk subkey = .ok () →
      ∃ b, s.embedded = some b ∧
        verify_primary_key_binding kv b pk subkey = .ok ()) ∧
    (s.keyFlagsForSigning.getD false = false →
      verify_subkey_binding kv s signer pk subkey = .ok ()) := by
  have key : verify_subkey_binding kv s signer pk subkey
      = if s.keyFlagsForSigning.getD false then
          (match s.embedded with
           | some backsig => verify_primary_key_binding kv backsig pk subkey
           | none => .error .badSignature)
        else .ok () := by
    unfold verify_subkey_binding
    rw [if_neg (not_not_intro htyp), hdig]
  refine ⟨?_, ?_, ?_⟩
  · intro hflag
    constructor
    · intro hemb
      rw [key, if_pos hflag, hemb]
    · intro b hemb
      rw [key, if_pos hflag, hemb]
  · intro hflag hok
    rw [key, if_pos hflag] at hok
    cases hemb : s.embedded with
    | none =>
      rw [hemb] at hok
      exact absurd hok (fun h => Except.noConfusion h)
    | some b =>
      rw [hemb] at hok
      exact ⟨b, rfl, hok⟩
  · intro hflag
    rw [key, if_neg (by rw [hflag]; exact Bool.false_ne_true)]

/-- Witness for C2: with an always-accepting oracle, a signing-capable
binding without a backsig fails, one with a type-correct backsig
passes, and a binding without key flags passes with no backsig. -/
theorem verify_subkey_binding_backsig_policy_witness :
    verify_subkey_binding (fun _ _ => .ok ())
        (SigM.mk .SubkeyBinding (some 10) (some true) none)
        (KeyM.mk 0 0) (KeyM.mk 1 0) (KeyM.mk 2 0)
      = .error .badSignature ∧
    verify_subkey_binding (fun _ _ => .ok ())
        (SigM.mk .SubkeyBinding (some 10) (some true)
          (some (SigM.mk .PrimaryKeyBinding (some 10) none none)))
        (KeyM.mk 0 0) (KeyM.mk 1 0) (KeyM.mk 2 0)
      = .ok () ∧
    verify_subkey_binding (fun _ _ => .ok ())
        (SigM.mk .SubkeyBinding (some 10) none none)
        (KeyM.mk 0 0) (KeyM.mk 1 0) (KeyM.mk 2 0)
      = .ok () :=
  ⟨((verify_subkey_binding_backsig_policy (fun _ _ => .ok ())
      (SigM.mk .SubkeyBinding (some 10) (some true) none)
      (KeyM.mk 0 0) (KeyM.mk 1 0) (KeyM.mk 2 0) rfl rfl).1 rfl).1 rfl,
   (((verify_subkey_binding_backsig_policy (fun _ _ => .ok ())
      (SigM.mk .SubkeyBinding (some 10) (some true)
        (some (SigM.mk .PrimaryKeyBinding (some 10) none none)))
      (KeyM.mk 0 0) (KeyM.mk 1 0) (KeyM.mk 2 0) rfl rfl).1 rfl).2
      (SigM.mk .PrimaryKeyBinding (some 10) none none) rfl).trans rfl,
   (verify_subkey_binding_backsig_policy (fun _ _ => .ok ())
      (SigM.mk .SubkeyBinding (some 10) none none)
      (KeyM.mk 0 0) (KeyM.mk 1 0) (KeyM.mk 2 0) rfl rfl).2.2 rfl⟩

/-! ## Theorems for claim C5 -/

/-- C5 (counterexample): a `verify_standalone` call whose declared
type is `Unknown(0)` — inside the claimed accepted set {Standalone,
Unknown} — is rejected with `UnsupportedSignatureType` although the
creation time is fine and the key accepts: the verify functions, in
contrast to the sign functions, accept no `Unknown` type. -/
theorem verify_standalone_rejects_unknown_type :
    verify_standalone (fun _ _ => .ok ())
        (SigM.mk (.Unknown 0) (some 5) none none) (KeyM.mk 0 0)
      = .error (.unsupportedSignatureType (.Unknown 0)) := rfl

/-! The accepted-type tables, stated from the (amended) spec table:
sign operations accept their class's types **plus `Unknown`**, verify
operations accept only the concrete types of their class. -/

def acceptSignStandalone : SigType → Bool
  | .Standalone | .Unknown _ => true
  | _ => false

def acceptSignTimestamp : SigType → Bool
  | .Timestamp | .Unknown _ => true
  | _ => false

def acceptSignDirectKey : SigType → Bool
  | .DirectKey | .KeyRevocation | .Unknown _ => true
  | _ => false

def acceptSignCertification : SigType → Bool
  | .GenericCertification | .PersonaCertification | .CasualCertification
  | .PositiveCertification | .CertificationRevocation | .Unknown _ => true
  | _ => false

def acceptSignSubkeyBinding : SigType → Bool
  | .SubkeyBinding | .SubkeyRevocation | .Unknown _ => true
  | _ => false

def acceptSignPrimaryKeyBinding : SigType → Bool
  | .PrimaryKeyBinding | .Unknown _ => true
  | _ => false

def acceptSignMessage : SigType → Bool
  | .Binary | .Text | .Unknown _ => true
  | _ => false

def acceptVerifyStandalone : SigType → Bool
  | .Standalone => true
  | _ => false

def acceptVerifyTimestamp : SigType → Bool
  | .Timestamp => true
  | _ => false

def acceptVerifyDirectKey : SigType → Bool
  | .DirectKey => true
  | _ => false

def acceptVerifyPrimaryKeyRevocation : SigType → Bool
  | .KeyRevocation => true
  | _ => false

def acceptVerifySubkeyBinding : SigType → Bool
  | .SubkeyBinding => true
  | _ => false

def acceptVerifyPrimaryKeyBinding : SigType → Bool
  | .PrimaryKeyBinding => true
  | _ => false

def acceptVerifySubkeyRevocation : SigType → Bool
  | .SubkeyRevocation => true
  | _ => false

def acceptVerifyCertification : SigType → Bool
  | .GenericCertification | .PersonaCertification | .CasualCertification
  | .PositiveCertification => true
  | _ => false

def acceptVerifyCertificationRevocation : SigType → Bool
  | .CertificationRevocation => true
  | _ => false

def acceptVerifyMessage : SigType → Bool
  | .Binary | .Text => true
  | _ => false

/-- C5 (amended): every sign operation is gated exactly by its
accepted-type table — its class's types plus `Unknown` — failing with
`UnsupportedSignatureType` before anything else runs, and every verify
operation is gated exactly by the concrete types of its class
(without `Unknown`), proceeding to the digest protocol only inside its
set. -/
theorem sign_verify_type_gate (rest : Except VError SigM)
    (kv : KeyM → SigM → Except VError Unit) (s : SigM)
    (k pk subkey : KeyM) (typ : SigType) :
    (sign_standalone rest typ = if acceptSignStandalone typ then rest
      else .error (.unsupportedSignatureType typ)) ∧
    (sign_timestamp rest typ = if acceptSignTimestamp typ then rest
      else .error (.unsupportedSignatureType typ)) ∧
    (sign_direct_key rest typ = if acceptSignDirectKey typ then rest
      else .error (.unsupportedSignatureType typ)) ∧
    (sign_userid_binding rest typ = if acceptSignCertification typ then rest
      else .error (.unsupportedSignatureType typ)) ∧
    (sign_user_attribute_binding rest typ
      = if acceptSignCertification typ then rest
        else .error (.unsupportedSignatureType typ)) ∧
    (sign_subkey_binding rest typ = if acceptSignSubkeyBinding typ then rest
      else .error (.unsupportedSignatureType typ)) ∧
    (sign_primary_key_binding rest typ
      = if acceptSignPrimaryKeyBinding typ then rest
        else .error (.unsupportedSignatureType typ)) ∧
    (sign_message rest typ = if acceptSignMessage typ then rest
      else .error (.unsupportedSignatureType typ)) ∧
    (verify_standalone kv s k = if acceptVerifyStandalone s.typ
      then verify_digest kv s k
      else .error (.unsupportedSignatureType s.typ)) ∧
    (verify_timestamp kv s k = if acceptVerifyTimestamp s.typ
      then verify_digest kv s k
      else .error (.unsupportedSignatureType s.typ)) ∧
    (verify_direct_key kv s k = if acceptVerifyDirectKey s.typ
      then verify_digest kv s k
      else .error (.unsupportedSignatureType s.typ)) ∧
    (verify_primary_key_revocation kv s k
      = if acceptVerifyPrimaryKeyRevocation s.typ
        then verify_digest kv s k
        else .error (.unsupportedSignatureType s.typ)) ∧
    (verify_subkey_binding kv s k pk subkey
      = if acceptVerifySubkeyBinding s.typ then
          (match verify_digest kv s k with
           | .error e => .error e
           | .ok _ =>
             if s.keyFlagsForSigning.getD false then
               (match s.embedded with
                | some b => verify_primary_key_binding kv b pk subkey
                | none => .error .badSignature)
             else .ok ())
        else .error (.unsupportedSignatureType s.typ)) ∧
    (verify_primary_key_binding kv s pk subkey
      = if acceptVerifyPrimaryKeyBinding s.typ
        then verify_digest kv s subkey
        else .error (.unsupportedSignatureType s.typ)) ∧
    (verify_subkey_revocation kv s k = if acceptVerifySubkeyRevocation s.typ
      then verify_digest kv s k
      else .error (.unsupportedSignatureType s.typ)) ∧
    (verify_userid_binding kv s k = if acceptVerifyCertification s.typ
      then verify_digest kv s k
      else .error (.unsupportedSignatureType s.typ)) ∧
    (verify_userid_revocation kv s k
      = if acceptVerifyCertificationRevocation s.typ
        then verify_digest kv s k
        else .error (.unsupportedSignatureType s.typ)) ∧
    (verify_user_attribute_binding kv s k = if acceptVerifyCertification s.typ
      then verify_digest kv s k
      else .error (.unsupportedSignatureType s.typ)) ∧
    (verify_user_attribute_revocation kv s k
      = if acceptVerifyCertificationRevocation s.typ
        then verify_digest kv s k
        else .error (.unsupportedSignatureType s.typ)) ∧
    (verify_message kv s k = if acceptVerifyMessage s.typ
      then verify_digest kv s k
      else .error (.unsupportedSignatureType s.typ)) := by
  obtain ⟨t, ct, kf, emb⟩ := s
  refine ⟨?_, ?_, ?_, ?_, ?_, ?_, ?_, ?_, ?_, ?_, ?_, ?_, ?_, ?_, ?_, ?_,
    ?_, ?_, ?_, ?_⟩
  all_goals first
    | (cases typ <;> rfl)
    | (cases t <;> rfl)

/-! ## Signature equality and hashing (claim C6)

Embedding of `PartialEq`/`Hash for Signature4` (packet/signature/mod.rs
lines 1398-1426) and `Signature::normalized_eq` (lines 1570-1578).
Areas are represented by their raw bytes; MPIs and other opaque
components by byte lists. -/

/-- `SubpacketAreas`: the hashed and the unhashed subpacket area. -/
structure SubpacketAreasM where
  hashed : List Nat
  unhashed : List Nat

/-- Modelled from the spec: the `PartialEq` implementation of
`SubpacketAreas` (in the newer subpacket module, which is not among
the shown sources) deliberately excludes the unhashed area — "equality
and hashing deliberately exclude the unhashed area". -/
def subpacketAreasEq (a b : SubpacketAreasM) : Bool :=
  a.hashed == b.hashed

/-- `SignatureFields` (packet/signature/mod.rs lines 70-81). -/
structure SignatureFieldsM where
  version : Nat
  typ : SigType
  pkAlgo : Nat
  hashAlgo : Nat
  subpackets : SubpacketAreasM

/-- The derived `PartialEq` of `SignatureFields`: all fields, the
areas through `subpacketAreasEq`. -/
def signatureFieldsEq (a b : SignatureFieldsM) : Bool :=
  a.version == b.version && a.typ == b.typ && a.pkAlgo == b.pkAlgo
    && a.hashAlgo == b.hashAlgo && subpacketAreasEq a.subpackets b.subpackets

/-- `Signature4` (packet/signature/mod.rs lines 1351-1373). -/
structure Signature4M where
  fields : SignatureFieldsM
  digestHead : Nat × Nat
  mpis : List Nat
  computedDigest : Option (List Nat)
  level : Nat

/-- `PartialEq for Signature4` (lines 1398-1415): MPIs, fields and
digest prefix; the cached digest and the level are excluded. -/
def signature4Eq (a b : Signature4M) : Bool :=
  a.mpis == b.mpis && signatureFieldsEq a.fields b.fields
    && a.digestHead == b.digestHead

/-- The data `Hash for Signature4` (lines 1419-1426) feeds the hasher:
MPIs, the fields (whose spec-modelled `Hash` covers only the hashed
area) and the digest prefix.  Two signatures hash alike exactly when
these coincide. -/
def signature4HashInput (s : Signature4M) :
    List Nat × (Nat × SigType × Nat × Nat × List Nat) × (Nat × Nat) :=
  (s.mpis,
   (s.fields.version, s.fields.typ, s.fields.pkAlgo, s.fields.hashAlgo,
    s.fields.subpackets.hashed),
   s.digestHead)

/-- `Signature::normalized_eq` (lines 1570-1578): MPIs, version, type,
algorithms, hashed area and digest prefix — never the unhashed area. -/
def normalizedEq (a b : Signature4M) : Bool :=
  a.mpis == b.mpis && a.fields.version == b.fields.version
    && a.fields.typ == b.fields.typ && a.fields.pkAlgo == b.fields.pkAlgo
    && a.fields.hashAlgo == b.fields.hashAlgo
    && a.fields.subpackets.hashed == b.fields.subpackets.hashed
    && a.digestHead == b.digestHead

/-! ## Theorems for claim C6 -/

/-- C6: replacing only the unhashed area leaves `==`, the hasher
input, and `normalized_eq` unchanged, while two signatures with
different hashed areas are unequal under all three. -/
theorem signature_eq_hash_ignore_unhashed (s t : Signature4M)
    (u : List Nat)
    (hdiff : t.fields.subpackets.hashed ≠ s.fields.subpackets.hashed) :
    (signature4Eq s
        { s with fields :=
          { s.fields with subpackets :=
            { s.fields.subpackets with unhashed := u } } } = true ∧
      signature4HashInput s
        = signature4HashInput
          { s with fields :=
            { s.fields with subpackets :=
              { s.fields.subpackets with unhashed := u } } } ∧
      normalizedEq s
        { s with fields :=
          { s.fields with subpackets :=
            { s.fields.subpackets with unhashed := u } } } = true) ∧
    (signature4Eq s t = false ∧
      signature4HashInput s ≠ signature4HashInput t ∧
      normalizedEq s t = false) := by
  have harea : (s.fields.subpackets.hashed == t.fields.subpackets.hashed)
      = false := by
    simp [Ne.symm hdiff]
  refine ⟨⟨?_, rfl, ?_⟩, ?_, ?_, ?_⟩
  · simp [signature4Eq, signatureFieldsEq, subpacketAreasEq]
  · simp [normalizedEq]
  · simp [signature4Eq, signatureFieldsEq, subpacketAreasEq, harea]
  · intro h
    have : s.fields.subpackets.hashed = t.fields.subpackets.hashed := by
      have h2 := congrArg (fun x => x.2.1.2.2.2.2) h
      simpa using h2
    exact (Ne.symm hdiff) this
  · simp [normalizedEq, harea]

/-- Witness for C6: two concrete signatures differing only in the
unhashed area agree under all three relations; one with a different
hashed area disagrees under all three. -/
theorem signature_eq_hash_ignore_unhashed_witness :
    (signature4Eq
        (Signature4M.mk
          (SignatureFieldsM.mk 4 .Binary 1 8 (SubpacketAreasM.mk [1] []))
          (0, 1) [7] none 0)
        (Signature4M.mk
          (SignatureFieldsM.mk 4 .Binary 1 8 (SubpacketAreasM.mk [1] [9]))
          (0, 1) [7] none 0) = true) ∧
    (signature4Eq
        (Signature4M.mk
          (SignatureFieldsM.mk 4 .Binary 1 8 (SubpacketAreasM.mk [1] []))
          (0, 1) [7] none 0)
        (Signature4M.mk
          (SignatureFieldsM.mk 4 .Binary 1 8 (SubpacketAreasM.mk [2] []))
          (0, 1) [7] none 0) = false) := by
  have h := signature_eq_hash_ignore_unhashed
    (Signature4M.mk
      (SignatureFieldsM.mk 4 .Binary 1 8 (SubpacketAreasM.mk [1] []))
      (0, 1) [7] none 0)
    (Signature4M.mk
      (SignatureFieldsM.mk 4 .Binary 1 8 (SubpacketAreasM.mk [2] []))
      (0, 1) [7] none 0)
    [9] (by decide)
  exact ⟨h.1.1, h.2.1⟩

/-! ## Key validity engine (claim C8)

Embedding of `ValidKeyIter::next_common` (cert/keyiter.rs lines
531-660).  The collaborator calls evaluated per key — `ka.policy(time)`
(binding-signature resolution), `key_handle()` aliasing,
`has_any_key_flag`, `alive()`, `revoked()`, `secret()` — are
represented by per-key data: each candidate key records the outcome
these calls would have at the iterator's evaluation time. -/

/-- A candidate key with the evaluation outcomes `next_common`
consults. -/
structure KeyInfoM where
  /-- `ka.policy(time)` succeeds (the binding signature resolves). -/
  resolves : Bool
  /-- `key.key_handle()`. -/
  handle : Nat
  /-- The binding signature's key-flags bitset. -/
  bindingFlags : Nat
  /-- `ka.alive()` succeeds. -/
  aliveOk : Bool
  /-- `ka.revoked()` is `RevocationStatus::Revoked`. -/
  definitelyRevoked : Bool
  /-- `key.secret()`: `none` if absent, `some true` if unencrypted,
  `some false` if encrypted. -/
  secret : Option Bool
  deriving DecidableEq, Repr

/-- The certificate: primary key, then subkeys in certificate order. -/
structure CertM where
  primary : KeyInfoM
  subkeys : List KeyInfoM
  deriving DecidableEq, Repr

/-- `ValidKeyIter` (cert/keyiter.rs lines 453-485): the certificate,
the primary-done flag, the remaining subkeys, and the optional
filters. -/
structure IterStateM where
  cert : Option CertM
  primary : Bool
  subkeys : List KeyInfoM
  keyHandles : List Nat
  flags : Option Nat
  alive : Option Unit
  revoked : Option Bool
  secret : Option Bool
  unencryptedSecret : Option Bool
  deriving DecidableEq, Repr

/-- The post-resolution filter cascade of `next_common` (keyiter.rs
lines 578-655): key-handle allow-list, capability flags, liveness,
revocation (could-be-revoked counts as not revoked), secret material,
unencrypted secret material. -/
def passesFilters (st : IterStateM) (k : KeyInfoM) : Bool :=
  (st.keyHandles.isEmpty || st.keyHandles.any (fun h => h == k.handle)) &&
  (match st.flags with
   | none => true
   | some f => (k.bindingFlags &&& f) != 0) &&
  (match st.alive with
   | none => true
   | some _ => k.aliveOk) &&
  (match st.revoked with
   | none => true
   | some want => if k.definitelyRevoked then want else !want) &&
  (match st.secret with
   | none => true
   | some want => if k.secret.isSome then want else !want) &&
  (match st.unencryptedSecret with
   | none => true
   | some want =>
     match k.secret with
     | some unenc => if unenc then want else !want
     | none => false)

/-- The empty-flag-set short circuit of `next_common` (keyiter.rs
lines 541-547); a `KeyFlags` bitset is empty when no bit is set. -/
def flagsEmptyShortCircuit (st : IterStateM) : Bool :=
  match st.flags with
  | some f => f == 0
  | none => false

/-- `ValidKeyIter::next_common` (keyiter.rs lines 531-660), with the
internal `loop` unrolled on fuel (each pass consumes the primary or
one subkey): consider the primary first — abort the whole traversal if
its binding fails to resolve — then the subkeys in order, skipping any
whose binding fails to resolve, yielding the first candidate passing
every filter. -/
def nextCommonF : Nat → IterStateM → Option KeyInfoM × IterStateM
  | 0, st => (none, st)
  | fuel + 1, st =>
    match st.cert with
    | none => (none, st)
    | some cert =>
      if flagsEmptyShortCircuit st then (none, st)
      else if ! st.primary then
        let st' := { st with primary := true }
        if ! cert.primary.resolves then (none, st')
        else if passesFilters st' cert.primary then (some cert.primary, st')
        else nextCommonF fuel st'
      else
        match st.subkeys with
        | [] => (none, st)
        | k :: rest =>
          let st' := { st with subkeys := rest }
          if ! k.resolves then nextCommonF fuel st'
          else if passesFilters st' k then (some k, st')
          else nextCommonF fuel st'

/-- `next_common` with sufficient fuel for one full pass. -/
def nextCommon (st : IterStateM) : Option KeyInfoM × IterStateM :=
  nextCommonF (st.subkeys.length + 2) st

/-- The traversal: repeatedly call `next_common`, collecting yielded
keys until the first `None` (how any consumer of the iterator sees
it). -/
def drainF : Nat → IterStateM → List KeyInfoM
  | 0, _ => []
  | fuel + 1, st =>
    match nextCommon st with
    | (some k, st') => k :: drainF fuel st'
    | (none, _) => []

/-- The full traversal of an iterator state. -/
def drain (st : IterStateM) : List KeyInfoM :=
  drainF (st.subkeys.length + 2) st

/-- The subkey phase as a first-match scan: skip keys whose binding
does not resolve, yield the first that resolves and passes the
filters, with the remaining subkeys. -/
def scanSubkeys (p : KeyInfoM → Bool) :
    List KeyInfoM → Option (KeyInfoM × List KeyInfoM)
  | [] => none
  | k :: rest =>
    if ! k.resolves then scanSubkeys p rest
    else if p k then some (k, rest)
    else scanSubkeys p rest

/-! ## Theorems for claim C8 -/

theorem scanSubkeys_none (p : KeyInfoM → Bool) (l : List KeyInfoM)
    (h : scanSubkeys p l = none) :
    l.filter (fun k => k.resolves && p k) = [] := by
  induction l with
  | nil => rfl
  | cons k rest ih =>
    unfold scanSubkeys at h
    by_cases hr : k.resolves
    · rw [if_neg (by simp [hr])] at h
      by_cases hp : p k
      · rw [if_pos hp] at h
        exact Option.noConfusion h
      · rw [if_neg hp] at h
        have hpk : (k.resolves && p k) = false := by
          simp [hp]
        simp only [List.filter_cons, hpk]
        exact ih h
    · rw [if_pos (by simp [hr])] at h
      have hpk : (k.resolves && p k) = false := by
        simp [hr]
      simp only [List.filter_cons, hpk]
      exact ih h

theorem scanSubkeys_some (p : KeyInfoM → Bool) (l : List KeyInfoM)
    (k : KeyInfoM) (rest : List KeyInfoM)
    (h : scanSubkeys p l = some (k, rest)) :
    l.filter (fun x => x.resolves && p x)
      = k :: rest.filter (fun x => x.resolves && p x) ∧
    rest.length < l.length := by
  induction l with
  | nil => exact Option.noConfusion h
  | cons x xs ih =>
    unfold scanSubkeys at h
    by_cases hr : x.resolves
    · rw [if_neg (by simp [hr])] at h
      by_cases hp : p x
      · rw [if_pos hp] at h
        obtain ⟨hk, hrest⟩ := Prod.mk.injEq .. ▸ Option.some.injEq .. ▸ h
        subst hk
        subst hrest
        refine ⟨?_, by simp⟩
        have hpk : (x.resolves && p x) = true := by
          simp [hr, hp]
        simp [List.filter_cons, hpk]
      · rw [if_neg hp] at h
        obtain ⟨hf, hlen⟩ := ih h
        have hpk : (x.resolves && p x) = false := by
          simp [hp]
        refine ⟨?_, Nat.lt_succ_of_lt hlen⟩
        simp only [List.filter_cons, hpk]
        exact hf
    · rw [if_pos (by simp [hr])] at h
      obtain ⟨hf, hlen⟩ := ih h
      have hpk : (x.resolves && p x) = false := by
        simp [hr]
      refine ⟨?_, Nat.lt_succ_of_lt hlen⟩
      simp only [List.filter_cons, hpk]
      exact hf

/-- The filters never read the certificate, the primary-done flag or
the remaining-subkey list. -/
theorem passesFilters_irrel (oc oc' : Option CertM) (pr pr' : Bool)
    (sk sk' : List KeyInfoM) (kh : List Nat) (fl : Option Nat)
    (al : Option Unit) (rv : Option Bool) (se un : Option Bool) :
    passesFilters (IterStateM.mk oc pr sk kh fl al rv se un)
      = passesFilters (IterStateM.mk oc' pr' sk' kh fl al rv se un) := rfl

/-- In the subkey phase (primary already consumed), `next_common` acts
as the first-match scan over the remaining subkeys. -/
theorem nextCommonF_subkey_phase (fuel : Nat) :
    ∀ (c : CertM) (sk : List KeyInfoM) (kh : List Nat) (fl : Option Nat)
      (al : Option Unit) (rv : Option Bool) (se un : Option Bool),
    flagsEmptyShortCircuit
      (IterStateM.mk (some c) true sk kh fl al rv se un) = false →
    sk.length < fuel →
    (scanSubkeys
        (passesFilters (IterStateM.mk (some c) true sk kh fl al rv se un))
        sk = none →
      (nextCommonF fuel
        (IterStateM.mk (some c) true sk kh fl al rv se un)).1 = none) ∧
    (∀ k rest,
      scanSubkeys
          (passesFilters (IterStateM.mk (some c) true sk kh fl al rv se un))
          sk = some (k, rest) →
      nextCommonF fuel (IterStateM.mk (some c) true sk kh fl al rv se un)
        = (some k, IterStateM.mk (some c) true rest kh fl al rv se un)) := by
  induction fuel with
  | zero =>
    intro c sk kh fl al rv se un _ hfuel
    exact absurd hfuel (Nat.not_lt_zero _)
  | succ fuel ih =>
    intro c sk kh fl al rv se un hf hfuel
    cases sk with
    | nil =>
      constructor
      · intro _
        simp only [nextCommonF, hf]
        rfl
      · intro k rest h
        exact Option.noConfusion h
    | cons x xs =>
      have hfx : flagsEmptyShortCircuit
          (IterStateM.mk (some c) true xs kh fl al rv se un) = false := hf
      have hlen : xs.length < fuel := Nat.lt_of_succ_lt_succ hfuel
      have hbody : nextCommonF (fuel + 1)
          (IterStateM.mk (some c) true (x :: xs) kh fl al rv se un)
          = if ! x.resolves then
              nextCommonF fuel
                (IterStateM.mk (some c) true xs kh fl al rv se un)
            else if passesFilters
                (IterStateM.mk (some c) true xs kh fl al rv se un) x then
              (some x, IterStateM.mk (some c) true xs kh fl al rv se un)
            else
              nextCommonF fuel
                (IterStateM.mk (some c) true xs kh fl al rv se un) := by
        simp only [nextCommonF, hf]
        rfl
      have hscan : scanSubkeys
          (passesFilters
            (IterStateM.mk (some c) true (x :: xs) kh fl al rv se un))
          (x :: xs)
          = if ! x.resolves then
              scanSubkeys
                (passesFilters
                  (IterStateM.mk (some c) true (x :: xs) kh fl al rv se un))
                xs
            else if passesFilters
                (IterStateM.mk (some c) true (x :: xs) kh fl al rv se un)
                x then
              some (x, xs)
            else
              scanSubkeys
                (passesFilters
                  (IterStateM.mk (some c) true (x :: xs) kh fl al rv se un))
                xs := rfl
      rw [passesFilters_irrel (some c) (some c) true true (x :: xs) xs]
        at hscan
      cases hxr : x.resolves with
      | false =>
        rw [hxr] at hbody hscan
        simp only [Bool.not_false, if_true] at hbody hscan
        rw [passesFilters_irrel (some c) (some c) true true (x :: xs) xs,
          hbody, hscan]
        exact ih c xs kh fl al rv se un hfx hlen
      | true =>
        rw [hxr] at hbody hscan
        simp only [Bool.not_true, Bool.false_eq_true, if_false] at hbody hscan
        cases hxp : passesFilters
            (IterStateM.mk (some c) true xs kh fl al rv se un) x with
        | true =>
          simp only [hxp, if_true] at hbody hscan
          rw [passesFilters_irrel (some c) (some c) true true (x :: xs) xs,
            hbody, hscan]
          constructor
          · intro h
            exact Option.noConfusion h
          · intro k rest h
            injection h with h1
            injection h1 with h2 h3
            subst h2
            subst h3
            rfl
        | false =>
          simp only [hxp, Bool.false_eq_true, if_false] at hbody hscan
          rw [passesFilters_irrel (some c) (some c) true true (x :: xs) xs,
            hbody, hscan]
          exact ih c xs kh fl al rv se un hfx hlen

/-- In the subkey phase, the traversal yields exactly the subkeys, in
order, whose binding resolves and which pass every filter. -/
theorem drainF_subkey_phase (fuel : Nat) :
    ∀ (c : CertM) (sk : List KeyInfoM) (kh : List Nat) (fl : Option Nat)
      (al : Option Unit) (rv : Option Bool) (se un : Option Bool),
    flagsEmptyShortCircuit
      (IterStateM.mk (some c) true sk kh fl al rv se un) = false →
    sk.length < fuel →
    drainF fuel (IterStateM.mk (some c) true sk kh fl al rv se un)
      = sk.filter (fun k => k.resolves &&
          passesFilters (IterStateM.mk (some c) true sk kh fl al rv se un)
            k) := by
  induction fuel with
  | zero =>
    intro c sk kh fl al rv se un _ hfuel
    exact absurd hfuel (Nat.not_lt_zero _)
  | succ fuel ih =>
    intro c sk kh fl al rv se un hf hfuel
    have hnext := nextCommonF_subkey_phase (sk.length + 2) c sk kh fl al rv
      se un hf (by omega)
    cases hscan : scanSubkeys
        (passesFilters (IterStateM.mk (some c) true sk kh fl al rv se un))
        sk with
    | none =>
      have h1 : (nextCommon
          (IterStateM.mk (some c) true sk kh fl al rv se un)).1 = none :=
        hnext.1 hscan
      have hfil := scanSubkeys_none _ _ hscan
      simp only [drainF]
      cases hnc : nextCommon
          (IterStateM.mk (some c) true sk kh fl al rv se un) with
      | mk fst snd =>
        rw [hnc] at h1
        cases fst with
        | some k => exact Option.noConfusion h1
        | none => exact hfil.symm ▸ rfl
    | some kr =>
      obtain ⟨k, rest⟩ := kr
      have h2 : nextCommon (IterStateM.mk (some c) true sk kh fl al rv se un)
          = (some k, IterStateM.mk (some c) true rest kh fl al rv se un) :=
        hnext.2 k rest hscan
      obtain ⟨hfil, hlt⟩ := scanSubkeys_some _ _ _ _ hscan
      simp only [drainF, h2]
      have hrest := ih c rest kh fl al rv se un hf (by omega)
      rw [hrest, hfil]
      rw [passesFilters_irrel (some c) (some c) true true rest sk]

/-- C8: in time-scoped iteration the primary key is considered before
the subkeys: if the primary key's binding fails to resolve, the whole
traversal yields nothing — even resolvable subkeys are never reached —
while if the primary resolves, the traversal yields the primary (when
it passes the filters) followed by exactly those subkeys, in
certificate order, whose binding resolves and which pass the filters:
a subkey whose binding fails to resolve is skipped and iteration
continues. -/
theorem validKeyIter_primary_poisons_subkeys_skipped (c : CertM)
    (kh : List Nat) (fl : Option Nat) (al : Option Unit) (rv : Option Bool)
    (se un : Option Bool)
    (hf : flagsEmptyShortCircuit
      (IterStateM.mk (some c) false c.subkeys kh fl al rv se un) = false) :
    (c.primary.resolves = false →
      drain (IterStateM.mk (some c) false c.subkeys kh fl al rv se un)
        = []) ∧
    (c.primary.resolves = true →
      drain (IterStateM.mk (some c) false c.subkeys kh fl al rv se un)
        = (if passesFilters
              (IterStateM.mk (some c) false c.subkeys kh fl al rv se un)
              c.primary
           then [c.primary] else [])
          ++ c.subkeys.filter (fun k => k.resolves &&
              passesFilters
                (IterStateM.mk (some c) false c.subkeys kh fl al rv se un)
                k)) := by
  have hf1 : flagsEmptyShortCircuit
      (IterStateM.mk (some c) true c.subkeys kh fl al rv se un)
      = false := hf
  have h22 : c.subkeys.length + 2 = (c.subkeys.length + 1) + 1 := rfl
  have hstep : ∀ (fuel : Nat) (st : IterStateM),
      drainF (fuel + 1) st
        = match nextCommon st with
          | (some k, st') => k :: drainF fuel st'
          | (none, _) => [] := fun _ _ => rfl
  have hbody : nextCommon
      (IterStateM.mk (some c) false c.subkeys kh fl al rv se un)
      = if ! c.primary.resolves then
          (none, IterStateM.mk (some c) true c.subkeys kh fl al rv se un)
        else if passesFilters
            (IterStateM.mk (some c) true c.subkeys kh fl al rv se un)
            c.primary then
          (some c.primary,
           IterStateM.mk (some c) true c.subkeys kh fl al rv se un)
        else
          nextCommonF (c.subkeys.length + 1)
            (IterStateM.mk (some c) true c.subkeys kh fl al rv se un) := by
    show nextCommonF (c.subkeys.length + 2) _ = _
    rw [h22]
    simp only [nextCommonF, hf]
    rfl
  have hdrain : drain
      (IterStateM.mk (some c) false c.subkeys kh fl al rv se un)
      = drainF ((c.subkeys.length + 1) + 1)
          (IterStateM.mk (some c) false c.subkeys kh fl al rv se un) := by
    show drainF (c.subkeys.length + 2) _ = _
    rw [h22]
  constructor
  · intro hres
    rw [hres] at hbody
    simp only [Bool.not_false, if_true] at hbody
    rw [hdrain, hstep, hbody]
  · intro hres
    rw [hres] at hbody
    simp only [Bool.not_true, Bool.false_eq_true, if_false] at hbody
    rw [passesFilters_irrel (some c) (some c) false true c.subkeys
      c.subkeys]
    cases hpass : passesFilters
        (IterStateM.mk (some c) true c.subkeys kh fl al rv se un)
        c.primary with
    | true =>
      simp only [hpass, if_true] at hbody ⊢
      rw [hdrain, hstep, hbody]
      show c.primary :: drainF (c.subkeys.length + 1)
          (IterStateM.mk (some c) true c.subkeys kh fl al rv se un) = _
      rw [drainF_subkey_phase (c.subkeys.length + 1) c c.subkeys kh fl al
        rv se un hf1 (Nat.lt_succ_self _)]
      rfl
    | false =>
      simp only [hpass, Bool.false_eq_true, if_false] at hbody ⊢
      have hnext := nextCommonF_subkey_phase (c.subkeys.length + 1) c
        c.subkeys kh fl al rv se un hf1 (Nat.lt_succ_self _)
      cases hscan : scanSubkeys
          (passesFilters
            (IterStateM.mk (some c) true c.subkeys kh fl al rv se un))
          c.subkeys with
      | none =>
        have h1 := hnext.1 hscan
        have hfil := scanSubkeys_none _ _ hscan
        rw [hdrain, hstep, hbody]
        cases hnc : nextCommonF (c.subkeys.length + 1)
            (IterStateM.mk (some c) true c.subkeys kh fl al rv se un) with
        | mk fst snd =>
          rw [hnc] at h1
          cases fst with
          | some k => exact Option.noConfusion h1
          | none =>
            rw [hfil]
            rfl
      | some kr =>
        obtain ⟨k, rest⟩ := kr
        have h2 := hnext.2 k rest hscan
        obtain ⟨hfil, hlt⟩ := scanSubkeys_some _ _ _ _ hscan
        rw [hdrain, hstep, hbody, h2]
        show k :: drainF (c.subkeys.length + 1)
            (IterStateM.mk (some c) true rest kh fl al rv se un) = _
        rw [drainF_subkey_phase (c.subkeys.length + 1) c rest kh fl al rv
          se un hf1 (Nat.lt_of_lt_of_le hlt (Nat.le_succ _))]
        rw [passesFilters_irrel (some c) (some c) true true rest c.subkeys]
        rw [hfil]
        rfl

/-- Witness for C8: with no filters set, a certificate whose primary
resolves and whose middle subkey's binding fails yields primary, first
and third subkey; one whose primary fails yields nothing although its
subkey would resolve. -/
theorem validKeyIter_primary_poisons_subkeys_skipped_witness :
    drain (IterStateM.mk
        (some (CertM.mk (KeyInfoM.mk true 1 0 true false none)
          [KeyInfoM.mk true 2 0 true false none,
           KeyInfoM.mk false 3 0 true false none,
           KeyInfoM.mk true 4 0 true false none]))
        false
        [KeyInfoM.mk true 2 0 true false none,
         KeyInfoM.mk false 3 0 true false none,
         KeyInfoM.mk true 4 0 true false none]
        [] none none none none none)
      = [KeyInfoM.mk true 1 0 true false none,
         KeyInfoM.mk true 2 0 true false none,
         KeyInfoM.mk true 4 0 true false none] ∧
    drain (IterStateM.mk
        (some (CertM.mk (KeyInfoM.mk false 1 0 true false none)
          [KeyInfoM.mk true 2 0 true false none]))
        false [KeyInfoM.mk true 2 0 true false none]
        [] none none none none none)
      = [] :=
  ⟨((validKeyIter_primary_poisons_subkeys_skipped
      (CertM.mk (KeyInfoM.mk true 1 0 true false none)
        [KeyInfoM.mk true 2 0 true false none,
         KeyInfoM.mk false 3 0 true false none,
         KeyInfoM.mk true 4 0 true false none])
      [] none none none none none rfl).2 rfl).trans (by decide),
   (validKeyIter_primary_poisons_subkeys_skipped
      (CertM.mk (KeyInfoM.mk false 1 0 true false none)
        [KeyInfoM.mk true 2 0 true false none])
      [] none none none none none rfl).1 rfl⟩

end OpenPGP
